import Mathlib

/-!
Shallow embedding of the MGCP gateway bridging core of the openbsc BSC NAT
(`src/openbsc/src/osmo-bsc_nat/bsc_mgcp_utils.c`), together with theorems
settling the frozen claims about it.

Strings from the C code are modelled as `List Char`, byte buffers as
`List Nat`, machine integers as `Nat`/`Int` with explicit truncation where
the C types force it.  Mutable structures become records, the heap of
pending-transaction slots and endpoints becomes total functions from the
index type, and side effects (messages written to the BSC or the call
agent) become an explicit event list.
-/

namespace BscNat

/-! ## Character scanning helpers (model of the `sscanf`/`strstr` uses) -/

/-- `isspace` for the characters the C library treats as whitespace. -/
def isSpaceC (c : Char) : Bool :=
  c = ' ' || c = '\t' || c = '\n' || c = '\r' || c = '\x0b' || c = '\x0c'

/-- Skip leading whitespace, as a `%d`/`%s` conversion or a blank in an
`sscanf` format does. -/
def dropWs (s : List Char) : List Char := s.dropWhile isSpaceC

/-- Match a literal character sequence, returning the rest of the input. -/
def matchLit : List Char → List Char → Option (List Char)
  | [], s => some s
  | _, [] => none
  | p :: ps, c :: cs => if p = c then matchLit ps cs else none

/-- Value of a run of decimal digits. -/
def digitsToNat (ds : List Char) : Nat :=
  ds.foldl (fun a c => a * 10 + (c.toNat - 48)) 0

/-- Read a non-empty run of decimal digits (the digit part of `%d`/`%u`). -/
def scanDigits (s : List Char) : Option (Nat × List Char) :=
  let ds := s.takeWhile Char.isDigit
  if ds = [] then none else some (digitsToNat ds, s.drop ds.length)

/-- A `%d` conversion without a field width: skip whitespace, optional
sign, then at least one digit. -/
def scanInt (s : List Char) : Option (Int × List Char) :=
  let s := dropWs s
  match s with
  | '-' :: r => (scanDigits r).map (fun p => (-(p.1 : Int), p.2))
  | '+' :: r => (scanDigits r).map (fun p => ((p.1 : Int), p.2))
  | r => (scanDigits r).map (fun p => ((p.1 : Int), p.2))

/-- A `%3d` conversion: skip whitespace, then consume at most 3 characters
of an optionally signed digit run. -/
def scanInt3 (s : List Char) : Option (Int × List Char) :=
  let s := dropWs s
  match s with
  | '-' :: r =>
    let ds := (r.takeWhile Char.isDigit).take 2
    if ds = [] then none
    else some (-(digitsToNat ds : Int), r.drop ds.length)
  | r =>
    let ds := (r.takeWhile Char.isDigit).take 3
    if ds = [] then none
    else some ((digitsToNat ds : Int), r.drop ds.length)

/-- A `%s`-style token: skip whitespace, then a non-empty run of
non-whitespace characters, truncated at `width` characters (`%59s`). -/
def scanTok (width : Nat) (s : List Char) : Option (List Char × List Char) :=
  let s := dropWs s
  let t := (s.takeWhile (fun c => !isSpaceC c)).take width
  if t = [] then none else some (t, s.drop t.length)

/-- `strstr`: the first suffix of `s` that starts with `pat`, if any. -/
def findSub (pat : List Char) : List Char → Option (List Char)
  | [] => if pat = [] then some [] else none
  | c :: rest =>
    if pat.isPrefixOf (c :: rest) then some (c :: rest) else findSub pat rest

/-! ## Endpoint numbering and CIC encoding -/

/-- Modelled from the spec: `mgcp_timeslot_to_endpoint` (libmgcp, not under
`src/`).  An endpoint id encodes a (multiplex, timeslot) pair with the
timeslot in the low 5 bits and the multiplex in the bits above. -/
def mgcp_timeslot_to_endpoint (multiplex timeslot : Nat) : Nat :=
  timeslot + 32 * multiplex

/-- Modelled from the spec: `mgcp_endpoint_to_timeslot` (libmgcp, not under
`src/`), the inverse decomposition of an endpoint id. -/
def mgcp_endpoint_to_timeslot (endp : Nat) : Nat × Nat :=
  (endp / 32, endp % 32)

/-- `create_cic`: rebuild the 16-bit circuit identity code of an endpoint,
`(multiplex << 5) | (timeslot & 0x1f)`, truncated to `uint16_t`. -/
def create_cic (endpoint : Nat) : Nat :=
  let mt := mgcp_endpoint_to_timeslot endpoint
  ((mt.1 <<< 5) ||| (mt.2 &&& 0x1f)) % 65536

/-- The CIC decoding done by `bsc_mgcp_assign_patch`:
`timeslot = cic & 0x1f` and `multiplex = (cic & ~0x1f) >> 5`, the latter
truncated to `uint8_t` by the declared type of `multiplex`. -/
def cic_decode (cic : Nat) : Nat × Nat :=
  (((cic &&& 0xffe0) >>> 5) % 256, cic &&& 0x1f)

/-- `bsc_mgcp_nr_multiplexes`: `ceil(max_endpoints / 32)`. -/
def bsc_mgcp_nr_multiplexes (max_endpoints : Nat) : Nat :=
  max_endpoints / 32 + (if max_endpoints % 32 = 0 then 0 else 1)

/-! ## The endpoint allocator (`bsc_assign_endpoint`) -/

/-- One normalization step of the allocator scan: wrap timeslot 0 and 31,
wrap the multiplex, and reset to (0, 1) when the derived endpoint id is out
of range.  Returns the normalized multiplex, timeslot and endpoint id. -/
def alloc_step (nMult maxE mult ts : Nat) : Nat × Nat × Nat :=
  let ts1 := if ts = 0 then 1 else ts
  let p := if ts1 = 0x1f then (mult + 1, 1) else (mult, ts1)
  let mult2 := if nMult ≤ p.1 then 0 else p.1
  let e := mgcp_timeslot_to_endpoint mult2 p.2
  if maxE ≤ e then (0, 1, mgcp_timeslot_to_endpoint 0 1) else (mult2, p.2, e)

/-- The scan loop of `bsc_assign_endpoint`: up to `fuel` positions, claim
the first endpoint whose status byte is 0 by setting it to 1. -/
def assignLoop (nMult maxE : Nat) : Nat → List Nat → Nat → Nat → Option (Nat × List Nat)
  | 0, _, _, _ => none
  | fuel + 1, status, mult, ts =>
    let s := alloc_step nMult maxE mult ts
    if status.getD s.2.2 1 = 0 then
      some (s.2.2, status.set s.2.2 1)
    else
      assignLoop nMult maxE fuel status s.1 (s.2.1 + 1)

/-- `bsc_assign_endpoint` on the status array: start at the slot after
`last_endpoint` and scan at most `max_endpoints` positions. -/
def bsc_assign_endpoint (nMult maxE lastEndpoint : Nat) (status : List Nat) :
    Option (Nat × List Nat) :=
  assignLoop nMult maxE maxE status (lastEndpoint / 32) (lastEndpoint % 32 + 1)

/-- The sequence of endpoint ids the allocator visits, in order: the
specification-side description of the scan. -/
def scanList (nMult maxE : Nat) : Nat → Nat → Nat → List Nat
  | 0, _, _ => []
  | fuel + 1, mult, ts =>
    let s := alloc_step nMult maxE mult ts
    s.2.2 :: scanList nMult maxE fuel s.1 (s.2.1 + 1)

end BscNat

namespace BscNat

/-! ## The MGCP rewriter (`bsc_mgcp_rewrite`, `patch_mgcp`) -/

/-- The line ending emitted for a line: CRLF when the source line ended in
a carriage return, LF otherwise. -/
def lineEnd (cr : Bool) : List Char := if cr then ['\r', '\n'] else ['\n']

/-- Decimal rendering of a `%d` argument. -/
def decInt (i : Int) : List Char :=
  if i < 0 then '-' :: Nat.toDigits 10 i.natAbs else Nat.toDigits 10 i.toNat

/-- Lowercase hexadecimal rendering of a `%x` argument: the `int` is read
as a 32-bit unsigned value. -/
def hexInt (e : Int) : List Char := Nat.toDigits 16 (e.emod 4294967296).toNat

/-- `patch_mgcp`: re-emit a verb line as
`"<op> <transaction token> <endp hex>@mgw MGCP 1.0<line end>"`.  The
transaction token is the second whitespace-separated token of the original
line (`sscanf(tok, "%*s %s", buf)`); if it is missing the line is skipped
and nothing is emitted. -/
def patch_mgcp (out : List Char) (op : List Char) (tok : List Char) (endp : Int)
    (cr : Bool) : List Char :=
  let s1 := dropWs tok
  let t1 := s1.takeWhile (fun c => !isSpaceC c)
  if t1 = [] then out
  else
    match scanTok 1000000 (s1.drop t1.length) with
    | none => out
    | some (t2, _) =>
      out ++ op ++ [' '] ++ t2 ++ [' '] ++ hexInt endp ++
        ("@mgw MGCP 1.0").data ++ lineEnd cr

/-- The `sscanf(token, "m=audio %*d RTP/AVP %d", &payload)` parse of an
`m=audio` SDP line. -/
def parseAudioPayload (tok : List Char) : Option Int :=
  match matchLit ("m=audio").data tok with
  | none => none
  | some r1 =>
    match scanInt (dropWs r1) with
    | none => none
    | some (_, r2) =>
      match matchLit ("RTP/AVP").data (dropWs r2) with
      | none => none
      | some r3 =>
        match scanInt (dropWs r3) with
        | none => none
        | some (v, _) => some v

/-- The rewritten `m=audio` line: `"m=audio <port> RTP/AVP <payload>"`. -/
def audioLine (port : Nat) (payload : Int) (cr : Bool) : List Char :=
  ("m=audio ").data ++ Nat.toDigits 10 port ++ (" RTP/AVP ").data ++
    decInt payload ++ lineEnd cr

/-- The appended format-parameter line: `"a=fmtp:<payload> mode-set=2"`. -/
def fmtpLine (payload : Int) (cr : Bool) : List Char :=
  ("a=fmtp:").data ++ decInt payload ++ (" mode-set=2").data ++ lineEnd cr

/-- Loop state of the rewriter: accumulated output, whether an `a=fmtp:`
line was seen, the payload of the last `m=audio` line (−1 when none), and
the line ending of the last processed line. -/
structure RwState where
  out : List Char
  found_fmtp : Bool
  payload : Int
  cr : Bool
deriving DecidableEq

/-- Processing of one LF-delimited line by `bsc_mgcp_rewrite`.  `none`
means the whole rewrite fails (unparseable `m=audio` line). -/
def rw_token (endpoint : Int) (ip : List Char) (port : Nat) (st : RwState)
    (token : List Char) : Option RwState :=
  let cr : Bool := token.getLast? = some '\r'
  if ("CRCX ").data.isPrefixOf token then
    some { st with out := patch_mgcp st.out ("CRCX").data token endpoint cr, cr := cr }
  else if ("DLCX ").data.isPrefixOf token then
    some { st with out := patch_mgcp st.out ("DLCX").data token endpoint cr, cr := cr }
  else if ("MDCX ").data.isPrefixOf token then
    some { st with out := patch_mgcp st.out ("MDCX").data token endpoint cr, cr := cr }
  else if ("c=IN IP4 ").data.isPrefixOf token then
    some { st with out := st.out ++ ("c=IN IP4 ").data ++ ip ++ lineEnd cr, cr := cr }
  else if ("m=audio ").data.isPrefixOf token then
    match parseAudioPayload token with
    | none => none
    | some pl =>
      some { st with out := st.out ++ audioLine port pl cr, payload := pl, cr := cr }
  else if ("a=fmtp:").data.isPrefixOf token then
    some { st with out := st.out ++ token ++ ['\n'], found_fmtp := true, cr := cr }
  else
    some { st with out := st.out ++ token ++ ['\n'], cr := cr }

/-- Split a buffer at every line feed; a buffer with `n` line feeds yields
`n + 1` segments. -/
def lfSplit : List Char → List (List Char)
  | [] => [[]]
  | c :: rest =>
    if c = '\n' then [] :: lfSplit rest
    else
      match lfSplit rest with
      | t :: ts => (c :: t) :: ts
      | [] => [[c]]

/-- The `strsep` loop body of `bsc_mgcp_rewrite` over the LF-delimited
lines; the caller drops the segment after the last line feed. -/
def rw_tokens (endpoint : Int) (ip : List Char) (port : Nat) :
    List (List Char) → RwState → Option RwState
  | [], st => some st
  | t :: ts, st =>
    match rw_token endpoint ip port st t with
    | none => none
    | some st' => rw_tokens endpoint ip port ts st'

/-- Initial loop state: empty output, no `a=fmtp:` seen, payload sentinel
−1, line ending defaulting to CRLF. -/
def rwInit : RwState := ⟨[], false, -1, true⟩

/-- `bsc_mgcp_rewrite`: reject over-long input, process every LF-terminated
line (the trailing unterminated segment is dropped by the `strsep` loop),
and append an `a=fmtp:` line when an `m=audio` line was seen but no
`a=fmtp:` line was. -/
def bsc_mgcp_rewrite (input : List Char) (endpoint : Int) (ip : List Char)
    (port : Nat) : Option (List Char) :=
  if 4096 - 256 < input.length then none
  else
    match rw_tokens endpoint ip port (lfSplit input).dropLast rwInit with
    | none => none
    | some st =>
      some (st.out ++
        (if !st.found_fmtp && st.payload ≠ -1 then fmtpLine st.payload st.cr else []))

/-- A processed line that triggers the `m=audio` branch. -/
def isAudioTok (t : List Char) : Bool := ("m=audio ").data.isPrefixOf t

/-- A processed line that triggers the `a=fmtp:` branch.  The three verb
branches are checked first in the code, but no verb line can also start
with `a=fmtp:`, so the simple test is equivalent. -/
def isFmtpTok (t : List Char) : Bool := ("a=fmtp:").data.isPrefixOf t

/-- The payload fold with an explicit starting value. -/
def lastAudioPayloadD (ts : List (List Char)) (d : Option Int) : Option Int :=
  ts.foldl (fun acc t => if isAudioTok t then parseAudioPayload t else acc) d

/-- The payload of the last `m=audio` line of a token list, if any. -/
def lastAudioPayload (ts : List (List Char)) : Option Int :=
  lastAudioPayloadD ts none

/-- The line ending of the last processed line, starting from a default. -/
def lastCrOfD (ts : List (List Char)) (d : Bool) : Bool :=
  ts.foldl (fun _ t => decide (t.getLast? = some '\r')) d

/-- The line ending of the last processed line (CRLF when no line was
processed, matching the initialization `cr = 1`). -/
def lastCrOf (ts : List (List Char)) : Bool := lastCrOfD ts true

end BscNat

namespace BscNat

/-! ## Reply parsing (`bsc_mgcp_parse_response`, `bsc_mgcp_extract_ci`) -/

/-- `bsc_mgcp_parse_response`: `sscanf(str, "%3d %59s\n", ...)` — a status
code of at most 3 digits and a transaction id of at most 59 characters. -/
def bsc_mgcp_parse_response (s : List Char) : Option (Int × List Char) :=
  match scanInt3 s with
  | none => none
  | some (code, r) =>
    match scanTok 59 r with
    | none => none
    | some (tid, _) => some (code, tid)

/-- Modelled from the spec: `CI_UNUSED` (mgcp_internal.h, not under
`src/`), the absent value of a connection identifier. -/
def CI_UNUSED : Nat := 0

/-- `bsc_mgcp_extract_ci`: find the first `"I: "` substring and parse the
unsigned connection identifier after it; `CI_UNUSED` when the line or the
number is missing.  The `%u` conversion is modelled for unsigned digit
strings, truncated to the 32-bit `ci` field. -/
def bsc_mgcp_extract_ci (s : List Char) : Nat :=
  match findSub ("I: ").data s with
  | none => CI_UNUSED
  | some res =>
    match matchLit ("I:").data res with
    | none => CI_UNUSED
    | some r1 =>
      match scanDigits (dropWs r1) with
      | none => CI_UNUSED
      | some (n, _) => n % 4294967296

/-! ## The data model of the NAT core -/

/-- Modelled from the spec: the `MGCP_ENDP_*` verb codes (mgcp.h, not
under `src/`) are distinct nonzero values, with 0 meaning "none". -/
def MGCP_ENDP_CRCX : Nat := 1

/-- Modelled from the spec: see `MGCP_ENDP_CRCX`. -/
def MGCP_ENDP_MDCX : Nat := 2

/-- Modelled from the spec: see `MGCP_ENDP_CRCX`. -/
def MGCP_ENDP_DLCX : Nat := 3

/-- The decisions the policy callback can return. -/
inductive Policy where
  | CONT
  | REJECT
  | DEFER
deriving DecidableEq

/-- A pending-transaction slot (`struct bsc_endpoint`). -/
structure BscEndpoint where
  transaction_id : Option (List Char)
  transaction_state : Nat
  bsc : Option Nat
deriving DecidableEq

/-- The freed pending slot: no id, state `none`, no BSC back-reference. -/
def emptySlot : BscEndpoint := ⟨none, 0, none⟩

/-- The parts of a trunk endpoint (`struct mgcp_endpoint`) the core
touches: the network-end connection id and the two local RTP ports. -/
structure MgcpEndp where
  ci : Nat
  net_end_local_port : Nat
  bts_end_local_port : Nat
  bts_end_addr : Option Nat
deriving DecidableEq

/-- An SCCP connection record, with its owning BSC named by index. -/
structure SccpConn where
  msc_endp : Int
  bsc_endp : Int
  bsc : Nat
deriving DecidableEq

/-- Per-BSC session state (`struct bsc_connection`): lazy endpoint-status
array, rotating cursor, and the configured maximum. -/
structure BscConn where
  endpoint_status : Option (List Nat)
  last_endpoint : Nat
  number_multiplexes : Nat
  max_endpoints : Nat
  cfg_max_endpoints : Option Nat
deriving DecidableEq

/-- The NAT state reached by the core's operations. -/
structure NatSt where
  bsc_endpoints : Int → BscEndpoint
  endpoints : Int → MgcpEndp
  number_endpoints : Nat
  sccp_connections : List SccpConn
  bscs : Nat → BscConn
  source_addr : List Char
  mgcp_msg : List Char

/-- Observable side effects of the core. -/
inductive Event where
  | dlcxSent (bsc : Nat) (endp : Int)
  | mdcxSent (bsc : Nat) (endp : Int) (port : Nat)
  | bscWrite (bsc : Nat) (msg : List Char)
  | toAgent (msg : List Char)
  | mgcpEndpFreed (i : Int)
deriving DecidableEq

/-- Replace the pending slot at index `i`. -/
def updSlot (st : NatSt) (i : Int) (s : BscEndpoint) : NatSt :=
  { st with bsc_endpoints := fun j => if j = i then s else st.bsc_endpoints j }

/-- Replace the trunk endpoint at index `i`. -/
def updEndp (st : NatSt) (i : Int) (e : MgcpEndp) : NatSt :=
  { st with endpoints := fun j => if j = i then e else st.endpoints j }

/-- Replace the BSC session `b`. -/
def updBsc (st : NatSt) (b : Nat) (bc : BscConn) : NatSt :=
  { st with bscs := fun j => if j = b then bc else st.bscs j }

/-- Replace the SCCP connection at list position `ci`. -/
def updCon (st : NatSt) (ci : Nat) (c : SccpConn) : NatSt :=
  { st with sccp_connections := st.sccp_connections.set ci c }

/-! ## Teardown and slot freeing -/

/-- `bsc_mgcp_free_endpoint`: clear the pending slot at index `i` (the id
string is freed, the state reset, the BSC back-reference dropped). -/
def bsc_mgcp_free_endpoint (st : NatSt) (i : Int) : NatSt :=
  updSlot st i emptySlot

/-- Modelled from the spec: `mgcp_free_endp` (libmgcp, not under `src/`)
releases the underlying MGCP endpoint; we model the connection identifier
reset, the release itself being visible as an `Event.mgcpEndpFreed`. -/
def mgcp_free_endp (st : NatSt) (i : Int) : NatSt :=
  updEndp st i { st.endpoints i with ci := CI_UNUSED }

/-- `bsc_mgcp_find_con`: the last SCCP connection whose `msc_endp` equals
`endpoint` (records with `msc_endp == -1` are skipped), with its index. -/
def bsc_mgcp_find_con (st : NatSt) (endpoint : Int) : Option (Nat × SccpConn) :=
  st.sccp_connections.enum.foldl
    (fun acc p =>
      if p.2.msc_endp = -1 then acc
      else if p.2.msc_endp ≠ endpoint then acc
      else some p) none

/-- `bsc_mgcp_dlcx` on the connection at list position `ci`: when a BSC
endpoint is bound and the status array exists, clear its status byte, send
a DLCX downstream and free the pending slot at `msc_endp`; in every case
reset both endpoint fields to −1 (`bsc_mgcp_init`). -/
def bsc_mgcp_dlcx (st : NatSt) (ci : Nat) : NatSt × List Event :=
  match st.sccp_connections.get? ci with
  | none => (st, [])
  | some con =>
    let b := st.bscs con.bsc
    let r :=
      match b.endpoint_status with
      | some status =>
        if con.bsc_endp ≠ -1 then
          let st1 := updBsc st con.bsc
            { b with endpoint_status := some (status.set con.bsc_endp.toNat 0) }
          let st2 := bsc_mgcp_free_endpoint st1 con.msc_endp
          (st2, [Event.dlcxSent con.bsc con.bsc_endp])
        else (st, ([] : List Event))
      | none => (st, [])
    (updCon r.1 ci { con with msc_endp := -1, bsc_endp := -1 }, r.2)

/-- `free_chan_downstream`: on a reply without a usable CI, send a DLCX to
the BSC when the pending verb was CRCX and the owning session is found on
this BSC, then free the pending slot and release the MGCP endpoint. -/
def free_chan_downstream (st : NatSt) (i : Nat) (bsc : Nat) : NatSt × List Event :=
  let slot := st.bsc_endpoints (i : Int)
  let evs :=
    if slot.transaction_state = MGCP_ENDP_CRCX then
      match bsc_mgcp_find_con st (i : Int) with
      | none => []
      | some p =>
        if p.2.bsc = bsc then [Event.dlcxSent bsc p.2.bsc_endp] else []
    else []
  let st1 := bsc_mgcp_free_endpoint st (i : Int)
  let st2 := mgcp_free_endp st1 (i : Int)
  (st2, evs ++ [Event.mgcpEndpFreed (i : Int)])

end BscNat

namespace BscNat

/-! ## Reply forwarding (`bsc_mgcp_forward`) -/

/-- The pending-slot scan of `bsc_mgcp_forward`: the first endpoint index
in `1 ..< number_endpoints` whose slot belongs to this BSC and holds the
parsed transaction id. -/
def forward_find (st : NatSt) (bsc : Nat) (tid : List Char) : Option Nat :=
  (List.range' 1 (st.number_endpoints - 1)).find? (fun i =>
    (st.bsc_endpoints (i : Int)).bsc = some bsc ∧
      (st.bsc_endpoints (i : Int)).transaction_id = some tid)

/-- `bsc_mgcp_forward`: drop over-long or unparseable replies, match the
pending slot, store the extracted CI, and either run the downstream
failure path (no CI) or consume the transaction and forward the rewritten
reply to the call agent. -/
def bsc_mgcp_forward (st : NatSt) (bsc : Nat) (msg : List Char) : NatSt × List Event :=
  if 2000 < msg.length then (st, [])
  else
    match bsc_mgcp_parse_response msg with
    | none => (st, [])
    | some (_, tid) =>
      match forward_find st bsc tid with
      | none => (st, [])
      | some i =>
        let ci := bsc_mgcp_extract_ci msg
        let st1 := updEndp st (i : Int) { st.endpoints (i : Int) with ci := ci }
        if ci = CI_UNUSED then
          free_chan_downstream st1 i bsc
        else
          let slot := st1.bsc_endpoints (i : Int)
          let st2 := updSlot st1 (i : Int)
            { slot with transaction_id := none, transaction_state := 0 }
          match bsc_mgcp_rewrite msg (-1) st2.source_addr
              ((st2.endpoints (i : Int)).net_end_local_port) with
          | none => (st2, [])
          | some out => (st2, [Event.toAgent out])

/-! ## The policy callback (`bsc_mgcp_policy_cb`) -/

/-- `bsc_mgcp_policy_cb` for endpoint `endpoint`, verb code `state` and
transaction id `transaction_id`; `peer` is the address `getpeername`
reports for the BSC connection, when it succeeds.  Clears a colliding
pending slot at entry, resolves the SCCP session, rewrites the call-agent
message for the BSC leg, records the pending slot and branches on the
verb. -/
def bsc_mgcp_policy_cb (st : NatSt) (endpoint : Int) (state : Nat)
    (transaction_id : List Char) (peer : Option Nat) :
    NatSt × Policy × List Event :=
  let slot := st.bsc_endpoints endpoint
  let slot1 :=
    if slot.transaction_id.isSome then
      { slot with transaction_id := none, transaction_state := 0 }
    else slot
  let st1 := updSlot st endpoint { slot1 with bsc := none }
  match bsc_mgcp_find_con st1 endpoint with
  | none =>
    (st1, (if state = MGCP_ENDP_CRCX then Policy.REJECT else Policy.CONT), [])
  | some p =>
    match bsc_mgcp_rewrite st1.mgcp_msg p.2.bsc_endp st1.source_addr
        ((st1.endpoints endpoint).bts_end_local_port) with
    | none => (st1, Policy.CONT, [])
    | some bsc_msg =>
      let st2 := updSlot st1 endpoint
        ⟨some transaction_id, state, some p.2.bsc⟩
      if state = MGCP_ENDP_CRCX then
        let st3 :=
          match peer with
          | some a => updEndp st2 endpoint { st2.endpoints endpoint with bts_end_addr := some a }
          | none => st2
        (st3, Policy.DEFER,
          [Event.bscWrite p.2.bsc bsc_msg,
           Event.mdcxSent p.2.bsc p.2.bsc_endp ((st2.endpoints endpoint).bts_end_local_port)])
      else if state = MGCP_ENDP_DLCX then
        let r := bsc_mgcp_dlcx st2 p.1
        (r.1, Policy.CONT, r.2)
      else
        (st2, Policy.DEFER, [Event.bscWrite p.2.bsc bsc_msg])

/-! ## Lazy status-array initialization and the BSSMAP patch -/

/-- `bsc_init_endps_if_needed`: on first use compute the number of
multiplexes from the configured maximum and allocate the zeroed status
array of length `32·multiplexes + 1`; fail without a configuration. -/
def bsc_init_endps_if_needed (b : BscConn) : Option BscConn :=
  if b.endpoint_status.isSome then some b
  else
    match b.cfg_max_endpoints with
    | none => none
    | some cfgMax =>
      let m := bsc_mgcp_nr_multiplexes cfgMax
      some { b with number_multiplexes := m, max_endpoints := cfgMax,
                    endpoint_status := some (List.replicate (32 * m + 1) 0) }

/-- `bsc_mgcp_assign_patch` for the connection at list position `ci`.  The
`tlv_parse` of the BSSMAP message is modelled from the spec (libosmocore,
not under `src/`): `cicOffset` is the offset of the located 2-byte
CIRCUIT_IDENTITY_CODE value, which lies past the 3 header bytes and inside
the message.  Returns the state and events produced so far together with
`some` patched message on success, `none` on failure. -/
def bsc_mgcp_assign_patch (st : NatSt) (ci : Nat) (msg : List Nat)
    (cicOffset : Nat) : NatSt × Option (List Nat) × List Event :=
  match st.sccp_connections.get? ci with
  | none => (st, none, [])
  | some _ =>
    if msg.length < 3 then (st, none, [])
    else if cicOffset < 3 ∨ msg.length < cicOffset + 2 then (st, none, [])
    else
      let cic := msg.getD cicOffset 0 * 256 + msg.getD (cicOffset + 1) 0
      let mt := cic_decode cic
      let endp := mgcp_timeslot_to_endpoint mt.1 mt.2
      if st.number_endpoints ≤ endp then (st, none, [])
      else
        let r := (List.range st.sccp_connections.length).foldl
          (fun (acc : NatSt × List Event) j =>
            match acc.1.sccp_connections.get? j with
            | some mcon =>
              if mcon.msc_endp = (endp : Int) then
                let d := bsc_mgcp_dlcx acc.1 j
                (d.1, acc.2 ++ d.2)
              else acc
            | none => acc) (st, [])
        match r.1.sccp_connections.get? ci with
        | none => (r.1, none, r.2)
        | some con1 =>
          let st2 := updCon r.1 ci { con1 with msc_endp := (endp : Int) }
          match bsc_init_endps_if_needed (st2.bscs con1.bsc) with
          | none => (st2, none, r.2)
          | some b1 =>
            let st3 := updBsc st2 con1.bsc b1
            match b1.endpoint_status with
            | none => (st3, none, r.2)
            | some status =>
              match bsc_assign_endpoint b1.number_multiplexes b1.max_endpoints
                  b1.last_endpoint status with
              | none => (st3, none, r.2)
              | some er =>
                let st4 := updBsc st3 con1.bsc
                  { b1 with endpoint_status := some er.2, last_endpoint := er.1 }
                let st5 := updCon st4 ci
                  { con1 with msc_endp := (endp : Int), bsc_endp := (er.1 : Int) }
                let newcic := create_cic er.1
                let msg' := (msg.set cicOffset (newcic / 256)).set (cicOffset + 1)
                  (newcic % 256)
                (st5, some msg', r.2)

/-! ## Bulk freeing -/

/-- `bsc_mgcp_free_endpoints`: free every pending slot and release every
trunk endpoint. -/
def bsc_mgcp_free_endpoints (st : NatSt) : NatSt × List Event :=
  (List.range' 1 (st.number_endpoints - 1)).foldl
    (fun (acc : NatSt × List Event) i =>
      let st1 := bsc_mgcp_free_endpoint acc.1 (i : Int)
      (mgcp_free_endp st1 (i : Int), acc.2 ++ [Event.mgcpEndpFreed (i : Int)]))
    (st, [])

/-- `bsc_mgcp_clear_endpoints_for`: on BSC disconnect, free every pending
slot bound to this BSC and release its trunk endpoint. -/
def bsc_mgcp_clear_endpoints_for (st : NatSt) (bsc : Nat) : NatSt × List Event :=
  (List.range' 1 (st.number_endpoints - 1)).foldl
    (fun (acc : NatSt × List Event) i =>
      if (acc.1.bsc_endpoints (i : Int)).bsc = some bsc then
        let st1 := bsc_mgcp_free_endpoint acc.1 (i : Int)
        (mgcp_free_endp st1 (i : Int), acc.2 ++ [Event.mgcpEndpFreed (i : Int)])
      else acc)
    (st, [])

end BscNat

namespace BscNat

/-- `bsc_assign_endpoint` at the session level: requires the status array,
claims an endpoint, stores it in the session's `bsc_endp` and updates the
BSC's `last_endpoint` cursor. -/
def bsc_assign_endpoint_st (b : BscConn) (con : SccpConn) :
    Option (BscConn × SccpConn) :=
  match b.endpoint_status with
  | none => none
  | some status =>
    match bsc_assign_endpoint b.number_multiplexes b.max_endpoints
        b.last_endpoint status with
    | none => none
    | some er =>
      some ({ b with endpoint_status := some er.2, last_endpoint := er.1 },
            { con with bsc_endp := (er.1 : Int) })

end BscNat

namespace BscNat

/-- The pending-slot invariant of the claim: the transaction id is present
exactly when the transaction state is not `none` (0). -/
def slotInv (s : BscEndpoint) : Prop :=
  s.transaction_id.isSome ↔ s.transaction_state ≠ 0

/-- `slotInv` at every pending slot of the NAT. -/
def natInv (st : NatSt) : Prop := ∀ i : Int, slotInv (st.bsc_endpoints i)

end BscNat

/-! ### Theorems settling the claims -/

namespace BscNat

set_option maxHeartbeats 2000000 in
set_option maxRecDepth 10000 in
/-- C4: CIC encoding and decoding are mutually inverse.  For every valid
pair (multiplex, timeslot) — timeslot in 1..30 and multiplex within the
`uint8_t` range the decoder stores it in — decoding the encoded CIC
returns the original pair; and converting any endpoint id to a
(multiplex, timeslot) pair and back is the identity. -/
theorem claim_C4 :
    (∀ mx, mx < 256 → ∀ ts, ts < 31 → 1 ≤ ts →
      cic_decode (create_cic (mgcp_timeslot_to_endpoint mx ts)) = (mx, ts)) ∧
    (∀ e : Nat,
      mgcp_timeslot_to_endpoint (mgcp_endpoint_to_timeslot e).1
        (mgcp_endpoint_to_timeslot e).2 = e) :=
  ⟨by decide, fun e => by
    simp only [mgcp_timeslot_to_endpoint, mgcp_endpoint_to_timeslot]
    omega⟩

/-- Witness for C4 at multiplex 3, timeslot 7 and endpoint id 77. -/
theorem claim_C4_witness :
    cic_decode (create_cic (mgcp_timeslot_to_endpoint 3 7)) = (3, 7) ∧
    mgcp_timeslot_to_endpoint (mgcp_endpoint_to_timeslot 77).1
      (mgcp_endpoint_to_timeslot 77).2 = 77 :=
  ⟨claim_C4.1 3 (by decide) 7 (by decide) (by decide), claim_C4.2 77⟩

/-- The allocator loop returns the first endpoint of its visiting sequence
whose status byte is 0, claimed by setting that byte to 1. -/
theorem assignLoop_eq_find (nMult maxE : Nat) :
    ∀ fuel status mult ts,
      assignLoop nMult maxE fuel status mult ts =
        ((scanList nMult maxE fuel mult ts).find?
            (fun e => decide (status.getD e 1 = 0))).map
          (fun e => (e, status.set e 1))
  | 0, status, mult, ts => by simp [assignLoop, scanList]
  | fuel + 1, status, mult, ts => by
    rw [assignLoop, scanList]
    by_cases h : status.getD (alloc_step nMult maxE mult ts).2.2 1 = 0
    · rw [if_pos h, List.find?_cons_of_pos _ (by simpa using h)]
      rfl
    · rw [if_neg h, List.find?_cons_of_neg _ (by simpa using h),
          assignLoop_eq_find nMult maxE fuel]

end BscNat

namespace BscNat

/-- The normalization step keeps the timeslot in 1..30, derives the
endpoint id from the pair, and yields an id below `max_endpoints` except
for the unchecked recompute after a reset, which yields endpoint 1. -/
theorem alloc_step_spec (nMult maxE mult ts : Nat) (h1 : 1 ≤ ts) (h2 : ts ≤ 31) :
    1 ≤ (alloc_step nMult maxE mult ts).2.1 ∧
    (alloc_step nMult maxE mult ts).2.1 ≤ 30 ∧
    (alloc_step nMult maxE mult ts).2.2 =
      (alloc_step nMult maxE mult ts).2.1 + 32 * (alloc_step nMult maxE mult ts).1 ∧
    ((alloc_step nMult maxE mult ts).2.2 < maxE ∨
      (alloc_step nMult maxE mult ts).2.2 = 1) := by
  simp only [alloc_step, mgcp_timeslot_to_endpoint]
  split_ifs <;> simp_all <;> omega

/-- Every endpoint the scan visits has a timeslot in 1..30 and, when at
least two endpoints exist, an id below `max_endpoints`. -/
theorem scanList_mem (nMult maxE : Nat) (hmax : 2 ≤ maxE) :
    ∀ fuel mult ts, 1 ≤ ts → ts ≤ 31 →
      ∀ e ∈ scanList nMult maxE fuel mult ts,
        e % 32 ≠ 0 ∧ e % 32 ≠ 31 ∧ e < maxE
  | 0, mult, ts, _, _ => by simp [scanList]
  | fuel + 1, mult, ts, h1, h2 => by
    rw [scanList]
    intro e he
    have hs := alloc_step_spec nMult maxE mult ts h1 h2
    rcases List.mem_cons.mp he with rfl | hmem
    · refine ⟨by omega, by omega, ?_⟩
      rcases hs.2.2.2 with h | h
      · exact h
      · omega
    · exact scanList_mem nMult maxE hmax fuel _ _ (by omega) (by omega) e hmem

/-- C5: the allocator scans from the slot after `last_endpoint` for at
most `max_endpoints` positions, visiting only endpoints whose timeslot is
neither 0 nor 31 and whose id is in range, claims the first one whose
status byte is 0 by setting the byte to 1, stores it into the session's
`bsc_endp` and updates `last_endpoint`; with no free slot in the scan it
fails. -/
theorem claim_C5 (b : BscConn) (con : SccpConn) (status : List Nat)
    (h : b.endpoint_status = some status) :
    bsc_assign_endpoint_st b con =
      ((scanList b.number_multiplexes b.max_endpoints b.max_endpoints
          (b.last_endpoint / 32) (b.last_endpoint % 32 + 1)).find?
        (fun e => decide (status.getD e 1 = 0))).map
        (fun e =>
          ({ b with endpoint_status := some (status.set e 1), last_endpoint := e },
           { con with bsc_endp := (e : Int) })) ∧
    (2 ≤ b.max_endpoints → b.last_endpoint % 32 ≤ 30 →
      ∀ e ∈ scanList b.number_multiplexes b.max_endpoints b.max_endpoints
          (b.last_endpoint / 32) (b.last_endpoint % 32 + 1),
        e % 32 ≠ 0 ∧ e % 32 ≠ 31 ∧ e < b.max_endpoints) := by
  constructor
  · simp only [bsc_assign_endpoint_st, h, bsc_assign_endpoint, assignLoop_eq_find]
    cases hf : (scanList b.number_multiplexes b.max_endpoints b.max_endpoints
        (b.last_endpoint / 32) (b.last_endpoint % 32 + 1)).find?
        (fun e => decide (status.getD e 1 = 0)) <;> simp [hf]
  · intro hmax hts
    exact scanList_mem _ _ hmax _ _ _ (by omega) (by omega)

/-- Witness for C5: a fresh BSC with 32 endpoints and cursor 0 allocates
endpoint 1. -/
theorem claim_C5_witness :
    bsc_assign_endpoint_st ⟨some (List.replicate 33 0), 0, 1, 32, some 32⟩ ⟨-1, -1, 0⟩ =
      ((scanList 1 32 32 0 1).find?
        (fun e => decide ((List.replicate 33 0).getD e 1 = 0))).map
        (fun e =>
          (⟨some ((List.replicate 33 0).set e 1), e, 1, 32, some 32⟩,
           ⟨-1, (e : Int), 0⟩)) ∧
    (2 ≤ 32 → 0 % 32 ≤ 30 →
      ∀ e ∈ scanList 1 32 32 0 1, e % 32 ≠ 0 ∧ e % 32 ≠ 31 ∧ e < 32) :=
  claim_C5 ⟨some (List.replicate 33 0), 0, 1, 32, some 32⟩ ⟨-1, -1, 0⟩
    (List.replicate 33 0) rfl

end BscNat

namespace BscNat

/-- `lfSplit` always yields at least one segment. -/
theorem lfSplit_ne_nil : ∀ s : List Char, lfSplit s ≠ []
  | [] => by simp [lfSplit]
  | c :: rest => by
    rw [lfSplit]
    split
    · simp
    · cases h : lfSplit rest with
      | nil => simp
      | cons t ts => simp [h]

/-- A buffer without a line feed is a single segment. -/
theorem lfSplit_no_lf : ∀ s : List Char, '\n' ∉ s → lfSplit s = [s]
  | [], _ => rfl
  | c :: rest, h => by
    have hc : ¬ c = '\n' := fun hcc => h (hcc ▸ List.mem_cons_self c rest)
    rw [lfSplit, if_neg hc, lfSplit_no_lf rest (fun hm => h (List.mem_cons_of_mem c hm))]

/-- Appending a line-feed-free tail only extends the final segment. -/
theorem lfSplit_append (suf : List Char) (h : '\n' ∉ suf) :
    ∀ pre, lfSplit (pre ++ suf) =
      (lfSplit pre).dropLast ++ [(lfSplit pre).getLastD [] ++ suf]
  | [] => by simp [lfSplit, lfSplit_no_lf suf h]
  | c :: p => by
    by_cases hc : c = '\n'
    · subst hc
      rw [List.cons_append, lfSplit, if_pos rfl, lfSplit, if_pos rfl,
          lfSplit_append suf h p]
      cases hq : lfSplit p with
      | nil => exact absurd hq (lfSplit_ne_nil p)
      | cons t ts => simp
    · rw [List.cons_append, lfSplit, if_neg hc, lfSplit, if_neg hc,
          lfSplit_append suf h p]
      cases hq : lfSplit p with
      | nil => exact absurd hq (lfSplit_ne_nil p)
      | cons t ts =>
        cases ts with
        | nil => simp
        | cons t2 ts2 => simp

/-- C10: the rewriter only processes LF-terminated lines — a trailing
segment not terminated by a line feed is omitted from the output entirely,
so appending it to an input does not change the result. -/
theorem claim_C10 (pre suf : List Char) (endpoint : Int) (ip : List Char)
    (port : Nat) (hn : '\n' ∉ suf) (hl : (pre ++ suf).length ≤ 4096 - 256) :
    bsc_mgcp_rewrite (pre ++ suf) endpoint ip port =
      bsc_mgcp_rewrite pre endpoint ip port := by
  have h1 : ¬ (4096 - 256 < (pre ++ suf).length) := by omega
  have h2 : ¬ (4096 - 256 < pre.length) := by
    simp only [List.length_append] at hl
    omega
  rw [bsc_mgcp_rewrite, bsc_mgcp_rewrite, if_neg h1, if_neg h2,
      lfSplit_append suf hn pre, List.dropLast_concat]

/-- Witness for C10: appending an unterminated `"y"` to `"x\n"` leaves the
rewriter's output unchanged. -/
theorem claim_C10_witness :
    bsc_mgcp_rewrite (("x\n").data ++ ("y").data) (-1) ("1.2.3.4").data 5 =
      bsc_mgcp_rewrite ("x\n").data (-1) ("1.2.3.4").data 5 :=
  claim_C10 ("x\n").data ("y").data (-1) ("1.2.3.4").data 5 (by decide) (by decide)

end BscNat

namespace BscNat

/-- A list with a cons prefix starts with that head. -/
theorem isPrefixOf_head {c : Char} {p t : List Char}
    (h : (c :: p).isPrefixOf t = true) : ∃ r, t = c :: r := by
  cases t with
  | nil => simp [List.isPrefixOf] at h
  | cons d r =>
    simp [List.isPrefixOf] at h
    exact ⟨r, by rw [h.1]⟩

/-- How one processed line changes the rewriter's bookkeeping state: the
`a=fmtp:` flag is or-ed with the line's own test, the stored line ending
becomes the line's, and the payload is replaced exactly on `m=audio`
lines. -/
theorem rw_token_spec (e : Int) (ip : List Char) (port : Nat) (st : RwState)
    (t : List Char) (st' : RwState) (h : rw_token e ip port st t = some st') :
    st'.found_fmtp = (st.found_fmtp || isFmtpTok t) ∧
    st'.cr = decide (t.getLast? = some '\r') ∧
    (if isAudioTok t then parseAudioPayload t = some st'.payload
     else st'.payload = st.payload) := by
  simp only [rw_token] at h
  split at h
  next h1 =>
    obtain ⟨r, rfl⟩ := isPrefixOf_head h1
    injection h with h
    subst h
    simp [isFmtpTok, isAudioTok, List.isPrefixOf]
  next h1 =>
    split at h
    next h2 =>
      obtain ⟨r, rfl⟩ := isPrefixOf_head h2
      injection h with h
      subst h
      simp [isFmtpTok, isAudioTok, List.isPrefixOf]
    next h2 =>
      split at h
      next h3 =>
        obtain ⟨r, rfl⟩ := isPrefixOf_head h3
        injection h with h
        subst h
        simp [isFmtpTok, isAudioTok, List.isPrefixOf]
      next h3 =>
        split at h
        next h4 =>
          obtain ⟨r, rfl⟩ := isPrefixOf_head h4
          injection h with h
          subst h
          simp [isFmtpTok, isAudioTok, List.isPrefixOf]
        next h4 =>
          split at h
          next h5 =>
            obtain ⟨r, rfl⟩ := isPrefixOf_head h5
            split at h
            · exact absurd h (by simp)
            next pl hpl =>
              injection h with h
              subst h
              refine ⟨by simp [isFmtpTok, List.isPrefixOf], by simp, ?_⟩
              rw [if_pos (by simpa [isAudioTok] using h5)]
              simpa using hpl
          next h5 =>
            split at h
            next h6 =>
              injection h with h
              subst h
              simp only [isFmtpTok, isAudioTok] at h5 ⊢
              simp [h6, h5]
            next h6 =>
              injection h with h
              subst h
              simp only [isFmtpTok, isAudioTok] at h5 h6 ⊢
              simp [h6, h5]

/-- Over a run of the loop, the `a=fmtp:` flag records whether any
processed line was an `a=fmtp:` line. -/
theorem rw_tokens_found_fmtp : ∀ (ts : List (List Char)) (e : Int)
    (ip : List Char) (port : Nat) (st st' : RwState),
    rw_tokens e ip port ts st = some st' →
    st'.found_fmtp = (st.found_fmtp || ts.any isFmtpTok)
  | [], e, ip, port, st, st' => by
    intro h
    rw [rw_tokens] at h
    injection h with h
    subst h
    simp
  | t :: ts, e, ip, port, st, st' => by
    intro h
    rw [rw_tokens] at h
    cases h1 : rw_token e ip port st t with
    | none => rw [h1] at h; exact absurd h (by simp)
    | some st1 =>
      rw [h1] at h
      have hs := (rw_token_spec e ip port st t st1 h1).1
      have h2 := rw_tokens_found_fmtp ts e ip port st1 st' h
      simp [h2, hs, Bool.or_assoc]

/-- Over a run of the loop, the stored line ending is that of the last
processed line. -/
theorem rw_tokens_cr : ∀ (ts : List (List Char)) (e : Int) (ip : List Char)
    (port : Nat) (st st' : RwState),
    rw_tokens e ip port ts st = some st' → st'.cr = lastCrOfD ts st.cr
  | [], e, ip, port, st, st' => by
    intro h
    rw [rw_tokens] at h
    injection h with h
    subst h
    simp [lastCrOfD]
  | t :: ts, e, ip, port, st, st' => by
    intro h
    rw [rw_tokens] at h
    cases h1 : rw_token e ip port st t with
    | none => rw [h1] at h; exact absurd h (by simp)
    | some st1 =>
      rw [h1] at h
      have hs := (rw_token_spec e ip port st t st1 h1).2.1
      have h2 := rw_tokens_cr ts e ip port st1 st' h
      rw [hs] at h2
      simpa [lastCrOfD, List.foldl_cons] using h2

/-- Over a run of the loop, the stored payload follows the last `m=audio`
line's parse. -/
theorem rw_tokens_payload : ∀ (ts : List (List Char)) (e : Int)
    (ip : List Char) (port : Nat) (st st' : RwState),
    rw_tokens e ip port ts st = some st' →
    lastAudioPayloadD ts (some st.payload) = some st'.payload
  | [], e, ip, port, st, st' => by
    intro h
    rw [rw_tokens] at h
    injection h with h
    subst h
    simp [lastAudioPayloadD]
  | t :: ts, e, ip, port, st, st' => by
    intro h
    rw [rw_tokens] at h
    cases h1 : rw_token e ip port st t with
    | none => rw [h1] at h; exact absurd h (by simp)
    | some st1 =>
      rw [h1] at h
      have hs := (rw_token_spec e ip port st t st1 h1).2.2
      have h2 := rw_tokens_payload ts e ip port st1 st' h
      simp only [lastAudioPayloadD, List.foldl_cons] at h2 ⊢
      by_cases hA : isAudioTok t
      · rw [if_pos hA] at hs ⊢
        rw [hs]
        exact h2
      · rw [if_neg hA] at hs ⊢
        rw [hs] at h2
        exact h2

/-- When the payload fold over a token list produces a value from the `none`
start, it produces the same value from any start. -/
theorem lastAudioPayloadD_mono : ∀ (ts : List (List Char)) (pl : Int)
    (a : Option Int), lastAudioPayloadD ts none = some pl →
    lastAudioPayloadD ts a = some pl
  | [], pl, a => by intro h; exact absurd h (by simp [lastAudioPayloadD])
  | t :: ts, pl, a => by
    intro h
    simp only [lastAudioPayloadD, List.foldl_cons] at h ⊢
    by_cases hA : isAudioTok t
    · rw [if_pos hA] at h ⊢
      exact h
    · rw [if_neg hA] at h ⊢
      exact lastAudioPayloadD_mono ts pl a h

end BscNat

namespace BscNat

/-- C8 (amended): when the rewriter succeeds, an `m=audio` line was seen
(here: the parse of the last one yields `pl`, not the −1 sentinel), and no
`a=fmtp:` line occurs anywhere among the processed lines, the output is the
per-line output followed by exactly `a=fmtp:<pl> mode-set=2` with the last
observed line ending; when an `a=fmtp:` line occurs anywhere — before or
after the `m=audio` line — nothing is appended. -/
theorem claim_C8 (input : List Char) (e : Int) (ip : List Char) (port : Nat)
    (out : List Char) (pl : Int)
    (hrw : bsc_mgcp_rewrite input e ip port = some out)
    (hpl : lastAudioPayload (lfSplit input).dropLast = some pl)
    (hne : pl ≠ -1) :
    ∃ st', rw_tokens e ip port (lfSplit input).dropLast rwInit = some st' ∧
      out = st'.out ++
        (if (lfSplit input).dropLast.any isFmtpTok then []
         else fmtpLine pl (lastCrOf (lfSplit input).dropLast)) := by
  rw [bsc_mgcp_rewrite] at hrw
  split at hrw
  · exact absurd hrw (by simp)
  · cases hq : rw_tokens e ip port (lfSplit input).dropLast rwInit with
    | none => rw [hq] at hrw; exact absurd hrw (by simp)
    | some st' =>
      rw [hq] at hrw
      injection hrw with hrw
      refine ⟨st', rfl, ?_⟩
      subst hrw
      have hff := rw_tokens_found_fmtp _ e ip port _ _ hq
      have hcr := rw_tokens_cr _ e ip port _ _ hq
      have hpl' : st'.payload = pl := by
        have h1 := rw_tokens_payload _ e ip port _ _ hq
        have h2 := lastAudioPayloadD_mono _ pl (some rwInit.payload) hpl
        rw [h1] at h2
        exact (Option.some.inj h2)
      rw [hff, hpl', hcr]
      by_cases hA : (lfSplit input).dropLast.any isFmtpTok
      · simp [hA, rwInit]
      · simp [hA, rwInit, hne, lastCrOf]

/-- Counterexample to C8 as stated: in an input whose `a=fmtp:` line comes
before the `m=audio` line — so that no `a=fmtp:` line follows the audio
line — the rewriter still appends nothing. -/
theorem claim_C8_counterexample :
    bsc_mgcp_rewrite ("a=fmtp:8 X\r\nm=audio 4000 RTP/AVP 8\r\n").data (-1)
        ("1.2.3.4").data 9 =
      some (("a=fmtp:8 X\r\nm=audio 9 RTP/AVP 8\r\n").data) ∧
    (fmtpLine 8 true).isSuffixOf (("a=fmtp:8 X\r\nm=audio 9 RTP/AVP 8\r\n").data)
      = false := by
  constructor
  · rfl
  · rfl

/-- Witness for C8 on an input with an `m=audio` line and no `a=fmtp:`
line: the append happens with the parsed payload and the last CRLF
ending. -/
theorem claim_C8_witness :
    ∃ st', rw_tokens (-1) ("1.2.3.4").data 9
        (lfSplit ("m=audio 4000 RTP/AVP 8\r\n").data).dropLast rwInit = some st' ∧
      ("m=audio 9 RTP/AVP 8\r\na=fmtp:8 mode-set=2\r\n").data = st'.out ++
        (if (lfSplit ("m=audio 4000 RTP/AVP 8\r\n").data).dropLast.any isFmtpTok then []
         else fmtpLine 8 (lastCrOf (lfSplit ("m=audio 4000 RTP/AVP 8\r\n").data).dropLast)) :=
  claim_C8 ("m=audio 4000 RTP/AVP 8\r\n").data (-1) ("1.2.3.4").data 9
    (("m=audio 9 RTP/AVP 8\r\na=fmtp:8 mode-set=2\r\n").data) 8
    (by rfl) (by rfl) (by decide)

end BscNat

namespace BscNat

/-- C9: `bsc_mgcp_dlcx` resets the session's `msc_endp` and `bsc_endp` to
−1 on every call; when `bsc_endp` is already −1 or the status array is
unallocated, no status byte is touched, no pending slot is freed and no
DLCX is sent. -/
theorem claim_C9 (st : NatSt) (ci : Nat) (con : SccpConn)
    (h : st.sccp_connections.get? ci = some con) :
    ((bsc_mgcp_dlcx st ci).1.sccp_connections.get? ci =
      some { con with msc_endp := -1, bsc_endp := -1 }) ∧
    ((con.bsc_endp = -1 ∨ (st.bscs con.bsc).endpoint_status = none) →
      (bsc_mgcp_dlcx st ci).1.bscs = st.bscs ∧
      (bsc_mgcp_dlcx st ci).1.bsc_endpoints = st.bsc_endpoints ∧
      (bsc_mgcp_dlcx st ci).2 = []) := by
  have hlen : ci < st.sccp_connections.length := (List.get?_eq_some.mp h).1
  simp only [bsc_mgcp_dlcx, h]
  constructor
  · cases hes : (st.bscs con.bsc).endpoint_status with
    | none => simp [hes, updCon, List.getElem?_set_eq_of_lt _ hlen]
    | some status =>
      by_cases hbe : con.bsc_endp = -1
      · simp [hes, hbe, updCon, List.getElem?_set_eq_of_lt _ hlen]
      · simp [hes, hbe, updCon, updBsc, bsc_mgcp_free_endpoint, updSlot,
              List.getElem?_set_eq_of_lt _ hlen]
  · intro hcase
    cases hes : (st.bscs con.bsc).endpoint_status with
    | none => simp [hes, updCon]
    | some status =>
      have hbe : con.bsc_endp = -1 := by
        rcases hcase with hbe | hes2
        · exact hbe
        · rw [hes] at hes2; exact absurd hes2 (by simp)
      simp [hes, hbe, updCon]

/-- Witness for C9 on a one-connection state whose session has
`bsc_endp = -1`: both fields end at −1 and nothing else changes. -/
theorem claim_C9_witness :
    ((bsc_mgcp_dlcx
        ⟨fun _ => emptySlot, fun _ => ⟨0, 0, 0, none⟩, 2, [⟨1, -1, 0⟩],
         fun _ => ⟨none, 0, 0, 0, none⟩, [], []⟩ 0).1.sccp_connections.get? 0 =
      some ⟨-1, -1, 0⟩) ∧
    (((⟨1, -1, 0⟩ : SccpConn).bsc_endp = -1 ∨
        ((⟨fun _ => emptySlot, fun _ => ⟨0, 0, 0, none⟩, 2, [⟨1, -1, 0⟩],
          fun _ => ⟨none, 0, 0, 0, none⟩, [], []⟩ : NatSt).bscs 0).endpoint_status = none) →
      (bsc_mgcp_dlcx
        ⟨fun _ => emptySlot, fun _ => ⟨0, 0, 0, none⟩, 2, [⟨1, -1, 0⟩],
         fun _ => ⟨none, 0, 0, 0, none⟩, [], []⟩ 0).1.bscs =
        (⟨fun _ => emptySlot, fun _ => ⟨0, 0, 0, none⟩, 2, [⟨1, -1, 0⟩],
          fun _ => ⟨none, 0, 0, 0, none⟩, [], []⟩ : NatSt).bscs ∧
      (bsc_mgcp_dlcx
        ⟨fun _ => emptySlot, fun _ => ⟨0, 0, 0, none⟩, 2, [⟨1, -1, 0⟩],
         fun _ => ⟨none, 0, 0, 0, none⟩, [], []⟩ 0).1.bsc_endpoints =
        (⟨fun _ => emptySlot, fun _ => ⟨0, 0, 0, none⟩, 2, [⟨1, -1, 0⟩],
          fun _ => ⟨none, 0, 0, 0, none⟩, [], []⟩ : NatSt).bsc_endpoints ∧
      (bsc_mgcp_dlcx
        ⟨fun _ => emptySlot, fun _ => ⟨0, 0, 0, none⟩, 2, [⟨1, -1, 0⟩],
         fun _ => ⟨none, 0, 0, 0, none⟩, [], []⟩ 0).2 = []) :=
  claim_C9 _ 0 ⟨1, -1, 0⟩ rfl

end BscNat

namespace BscNat

/-- Counterexample to C3 as stated: on a fresh BSC configured with
`max_endpoints = 2` (one multiplex, zeroed status array, cursor 0), the
first allocation claims endpoint 1 but already the second allocation
fails — not the third as claimed: ids ≥ `max_endpoints` are rejected and
id 0 is reserved, leaving a single usable endpoint. -/
theorem claim_C3_counterexample :
    bsc_assign_endpoint 1 2 0 (List.replicate 33 0) =
      some (1, (List.replicate 33 0).set 1 1) ∧
    bsc_assign_endpoint 1 2 1 ((List.replicate 33 0).set 1 1) = none := by
  constructor
  · rfl
  · rfl

/-- C3 (amended): with `max_endpoints = 2` the first allocation succeeds
with endpoint 1, the second allocation already exhausts the allocator, and
the BSSMAP assignment patch on a state whose single endpoint is in use
returns failure. -/
theorem claim_C3 :
    bsc_assign_endpoint 1 2 0 (List.replicate 33 0) =
      some (1, (List.replicate 33 0).set 1 1) ∧
    bsc_assign_endpoint 1 2 1 ((List.replicate 33 0).set 1 1) = none ∧
    (bsc_mgcp_assign_patch
      ⟨fun _ => emptySlot, fun _ => ⟨0, 0, 0, none⟩, 32, [⟨-1, -1, 0⟩],
       fun _ => ⟨some ((List.replicate 33 0).set 1 1), 1, 1, 2, some 2⟩, [], []⟩
      0 [0, 0, 0, 0, 1] 3).2.1 = none := by
  refine ⟨rfl, rfl, ?_⟩
  rfl

end BscNat

namespace BscNat


set_option maxHeartbeats 1000000 in
/-- C6: a successful BSSMAP assignment patch changes only the two bytes of
the CIC TLV value, overwriting them with `create_cic(session.bsc_endp)` in
network byte order (high byte first); every other byte of the message is
unchanged and the length is preserved. -/
theorem claim_C6 (st : NatSt) (ci : Nat) (msg : List Nat) (off : Nat)
    (msg' : List Nat)
    (h : (bsc_mgcp_assign_patch st ci msg off).2.1 = some msg') :
    ∃ con', (bsc_mgcp_assign_patch st ci msg off).1.sccp_connections.get? ci =
        some con' ∧
      0 ≤ con'.bsc_endp ∧
      msg'.length = msg.length ∧
      (∀ j, j ≠ off → j ≠ off + 1 → msg'.get? j = msg.get? j) ∧
      msg'.get? off = some (create_cic con'.bsc_endp.toNat / 256) ∧
      msg'.get? (off + 1) = some (create_cic con'.bsc_endp.toNat % 256) := by
  simp only [bsc_mgcp_assign_patch] at h ⊢
  split at h
  next hcon => exact absurd h (by simp)
  next con hcon =>
    split at h
    · exact absurd h (by simp)
    next hlen3 =>
      split at h
      · exact absurd h (by simp)
      next hoff =>
        split at h
        · exact absurd h (by simp)
        next hendp =>
          split at h
          next hcon1 => exact absurd h (by simp)
          next con1 hcon1 =>
            split at h
            next hb1 => exact absurd h (by simp)
            next b1 hb1 =>
              split at h
              next hst => exact absurd h (by simp)
              next status hst =>
                split at h
                next her => exact absurd h (by simp)
                next er her =>
                  simp only [Option.some.injEq] at h
                  subst h
                  have hb : 3 ≤ off ∧ off + 2 ≤ msg.length := by
                    push_neg at hoff
                    exact hoff
                  have hcilen : ci < st.sccp_connections.length :=
                    (List.get?_eq_some.mp hcon).1
                  simp only [hcon, if_neg hlen3, if_neg hoff, if_neg hendp,
                    hcon1, hb1, hst, her]
                  refine ⟨(⟨((mgcp_timeslot_to_endpoint
                      (cic_decode (msg.getD off 0 * 256 + msg.getD (off + 1) 0)).1
                      (cic_decode (msg.getD off 0 * 256 + msg.getD (off + 1) 0)).2 : Nat) : Int),
                    (er.1 : Int), con1.bsc⟩ : SccpConn), ?_, ?_, ?_, ?_, ?_, ?_⟩
                  · simp only [updCon, updBsc]
                    exact List.get?_set_eq_of_lt _ (by
                      simpa [updCon, updBsc] using (List.get?_eq_some.mp hcon1).1)
                  · simp
                  · simp
                  · intro j hj1 hj2
                    rw [List.get?_set_ne _ _ (by omega), List.get?_set_ne _ _ (by omega)]
                  · rw [Int.toNat_natCast, List.get?_set_ne _ _ (by omega),
                        List.get?_set_eq_of_lt _ (by omega)]
                  · rw [Int.toNat_natCast,
                        List.get?_set_eq_of_lt _ (by simp; omega)]

end BscNat

namespace BscNat

/-- Witness for C6: a successful patch on a 6-byte message with the CIC
value at offset 3 rewrites only bytes 3 and 4. -/
theorem claim_C6_witness :
    ∃ con', (bsc_mgcp_assign_patch
        ⟨fun _ => emptySlot, fun _ => ⟨0, 0, 0, none⟩, 32, [⟨-1, -1, 0⟩],
         fun _ => ⟨some (List.replicate 33 0), 0, 1, 32, some 32⟩, [], []⟩
        0 [9, 9, 9, 0, 1, 7] 3).1.sccp_connections.get? 0 = some con' ∧
      0 ≤ con'.bsc_endp ∧
      ([9, 9, 9, 0, 1, 7] : List Nat).length = ([9, 9, 9, 0, 1, 7] : List Nat).length ∧
      (∀ j, j ≠ 3 → j ≠ 3 + 1 →
        ([9, 9, 9, 0, 1, 7] : List Nat).get? j = ([9, 9, 9, 0, 1, 7] : List Nat).get? j) ∧
      ([9, 9, 9, 0, 1, 7] : List Nat).get? 3 = some (create_cic con'.bsc_endp.toNat / 256) ∧
      ([9, 9, 9, 0, 1, 7] : List Nat).get? (3 + 1) = some (create_cic con'.bsc_endp.toNat % 256) :=
  claim_C6
    ⟨fun _ => emptySlot, fun _ => ⟨0, 0, 0, none⟩, 32, [⟨-1, -1, 0⟩],
     fun _ => ⟨some (List.replicate 33 0), 0, 1, 32, some 32⟩, [], []⟩
    0 [9, 9, 9, 0, 1, 7] 3 [9, 9, 9, 0, 1, 7] rfl

end BscNat

namespace BscNat

/-- The freed slot satisfies the id/state invariant. -/
theorem slotInv_empty : slotInv emptySlot := by simp [slotInv, emptySlot]

/-- Clearing id and state together preserves the invariant. -/
theorem slotInv_cleared (s : BscEndpoint) :
    slotInv { s with transaction_id := none, transaction_state := 0 } := by
  simp [slotInv]

/-- Replacing one slot with an invariant-satisfying one preserves the
NAT-wide invariant. -/
theorem natInv_updSlot {st : NatSt} {i : Int} {s : BscEndpoint}
    (h : natInv st) (hs : slotInv s) : natInv (updSlot st i s) := by
  intro j
  simp only [updSlot]
  by_cases hj : j = i
  · simpa [hj] using hs
  · simpa [hj] using h j

/-- Freeing a pending slot preserves the invariant. -/
theorem natInv_free_endpoint {st : NatSt} (h : natInv st) (i : Int) :
    natInv (bsc_mgcp_free_endpoint st i) :=
  natInv_updSlot h slotInv_empty

/-- Session teardown preserves the invariant. -/
theorem natInv_dlcx {st : NatSt} (h : natInv st) (ci : Nat) :
    natInv (bsc_mgcp_dlcx st ci).1 := by
  rw [bsc_mgcp_dlcx]
  split
  · exact h
  next con hcon =>
    intro j
    simp only []
    split
    next status heq =>
      split
      next hbe =>
        simp only [updCon, bsc_mgcp_free_endpoint, updSlot, updBsc]
        by_cases hj : j = con.msc_endp
        · simpa [hj] using slotInv_empty
        · simpa [hj] using h j
      next hbe => exact h j
    next heq => exact h j

/-- The downstream failure path preserves the invariant. -/
theorem natInv_free_chan {st : NatSt} (h : natInv st) (i : Nat) (b : Nat) :
    natInv (free_chan_downstream st i b).1 := by
  intro j
  simp only [free_chan_downstream, mgcp_free_endp, bsc_mgcp_free_endpoint,
    updEndp, updSlot]
  by_cases hj : j = (i : Int)
  · simpa [hj] using slotInv_empty
  · simpa [hj] using h j

/-- Replacing a trunk endpoint leaves all pending slots unchanged. -/
theorem natInv_updEndp {st : NatSt} (h : natInv st) (i : Int) (x : MgcpEndp) :
    natInv (updEndp st i x) := h

/-- Reply forwarding preserves the invariant. -/
theorem natInv_forward {st : NatSt} (h : natInv st) (b : Nat) (msg : List Char) :
    natInv (bsc_mgcp_forward st b msg).1 := by
  rw [bsc_mgcp_forward]
  split
  · exact h
  · split
    · exact h
    next p hp =>
      split
      · exact h
      next i hfind =>
        dsimp only
        split
        next hci => exact natInv_free_chan (natInv_updEndp h _ _) i b
        next hci =>
          split
          · exact natInv_updSlot (natInv_updEndp h _ _) (slotInv_cleared _)
          · exact natInv_updSlot (natInv_updEndp h _ _) (slotInv_cleared _)

/-- The policy callback preserves the invariant for the verb codes the
MGCP parser passes (all nonzero). -/
theorem natInv_policy {st : NatSt} (h : natInv st) (e : Int) (state : Nat)
    (tid : List Char) (peer : Option Nat) (hs : state ≠ 0) :
    natInv (bsc_mgcp_policy_cb st e state tid peer).1 := by
  rw [bsc_mgcp_policy_cb]
  dsimp only
  split
  · refine natInv_updSlot h ?_
    by_cases hid : (st.bsc_endpoints e).transaction_id.isSome
    · simp [slotInv, hid]
    · simpa [slotInv, hid] using h e
  next p hfind =>
    split
    · refine natInv_updSlot h ?_
      by_cases hid : (st.bsc_endpoints e).transaction_id.isSome
      · simp [slotInv, hid]
      · simpa [slotInv, hid] using h e
    next out hout =>
      split
      next hcrcx =>
        split
        · refine natInv_updEndp (natInv_updSlot (natInv_updSlot h ?_) ?_) _ _
          · by_cases hid : (st.bsc_endpoints e).transaction_id.isSome
            · simp [slotInv, hid]
            · simpa [slotInv, hid] using h e
          · simp [slotInv, hs]
        · refine natInv_updSlot (natInv_updSlot h ?_) ?_
          · by_cases hid : (st.bsc_endpoints e).transaction_id.isSome
            · simp [slotInv, hid]
            · simpa [slotInv, hid] using h e
          · simp [slotInv, hs]
      next hncrcx =>
        split
        next hdlcx =>
          refine natInv_dlcx (natInv_updSlot (natInv_updSlot h ?_) ?_) p.1
          · by_cases hid : (st.bsc_endpoints e).transaction_id.isSome
            · simp [slotInv, hid]
            · simpa [slotInv, hid] using h e
          · simp [slotInv, hs]
        next hndlcx =>
          refine natInv_updSlot (natInv_updSlot h ?_) ?_
          · by_cases hid : (st.bsc_endpoints e).transaction_id.isSome
            · simp [slotInv, hid]
            · simpa [slotInv, hid] using h e
          · simp [slotInv, hs]

/-- A fold whose step preserves the invariant preserves it. -/
theorem natInv_foldl {α : Type} (f : NatSt × List Event → α → NatSt × List Event)
    (hf : ∀ acc i, natInv acc.1 → natInv (f acc i).1) :
    ∀ (l : List α) (acc : NatSt × List Event), natInv acc.1 →
      natInv (l.foldl f acc).1
  | [], _, h => h
  | i :: l, acc, h => natInv_foldl f hf l (f acc i) (hf acc i h)

/-- Bulk freeing of all pending slots preserves the invariant. -/
theorem natInv_free_endpoints {st : NatSt} (h : natInv st) :
    natInv (bsc_mgcp_free_endpoints st).1 := by
  rw [bsc_mgcp_free_endpoints]
  refine natInv_foldl _ ?_ _ (st, []) h
  intro acc i hacc j
  simp only [mgcp_free_endp, bsc_mgcp_free_endpoint, updEndp, updSlot]
  by_cases hj : j = i
  · simpa [hj] using slotInv_empty
  · simpa [hj] using hacc j

/-- The BSC-disconnect cleanup preserves the invariant. -/
theorem natInv_clear_endpoints {st : NatSt} (h : natInv st) (b : Nat) :
    natInv (bsc_mgcp_clear_endpoints_for st b).1 := by
  rw [bsc_mgcp_clear_endpoints_for]
  refine natInv_foldl _ ?_ _ (st, []) h
  intro acc i hacc
  split
  · intro j
    simp only [mgcp_free_endp, bsc_mgcp_free_endpoint, updEndp, updSlot]
    by_cases hj : j = i
    · simpa [hj] using slotInv_empty
    · simpa [hj] using hacc j
  · exact hacc

end BscNat

namespace BscNat

/-- C1 (amended): the equivalence `transaction_id present ⇔
transaction_state ≠ none` is preserved by every operation of the core
(policy decision with a nonzero verb code, reply forwarding, teardown,
endpoint free, bulk free, BSC disconnect cleanup).  The `bsc`
back-reference is *not* part of the invariant: reply forwarding clears id
and state but leaves `bsc` set (see the counterexample). -/
theorem claim_C1 (st : NatSt) (h : natInv st) :
    (∀ (e : Int) (state : Nat) (tid : List Char) (peer : Option Nat),
      state ≠ 0 → natInv (bsc_mgcp_policy_cb st e state tid peer).1) ∧
    (∀ (b : Nat) (msg : List Char), natInv (bsc_mgcp_forward st b msg).1) ∧
    (∀ ci : Nat, natInv (bsc_mgcp_dlcx st ci).1) ∧
    (∀ i : Int, natInv (bsc_mgcp_free_endpoint st i)) ∧
    natInv (bsc_mgcp_free_endpoints st).1 ∧
    (∀ b : Nat, natInv (bsc_mgcp_clear_endpoints_for st b).1) :=
  ⟨fun e state tid peer hs => natInv_policy h e state tid peer hs,
   fun b msg => natInv_forward h b msg,
   fun ci => natInv_dlcx h ci,
   fun i => natInv_free_endpoint h i,
   natInv_free_endpoints h,
   fun b => natInv_clear_endpoints h b⟩

/-- Witness for C1 on the all-empty state and a reply message. -/
theorem claim_C1_witness :
    natInv (bsc_mgcp_forward
      ⟨fun _ => emptySlot, fun _ => ⟨0, 0, 0, none⟩, 2, [],
       fun _ => ⟨none, 0, 0, 0, none⟩, [], []⟩
      0 ("200 1234\n").data).1 :=
  (claim_C1 _ (fun _ => slotInv_empty)).2.1 0 ("200 1234\n").data

/-- Counterexample to C1 as stated: after a reply is consumed by
`bsc_mgcp_forward`, the matched slot has no transaction id and state
`none`, yet its `bsc` back-reference is still set — the claimed three-way
equivalence fails after a reply-forwarding operation. -/
theorem claim_C1_counterexample :
    ((bsc_mgcp_forward
      ⟨fun j => if j = 1 then ⟨some ("1234").data, 1, some 0⟩ else emptySlot,
       fun _ => ⟨0, 7, 8, none⟩, 2, [⟨1, 1, 0⟩],
       fun _ => ⟨some [0, 1], 1, 1, 2, some 2⟩, ("10.0.0.1").data, []⟩
      0 ("200 1234\nI: 5\n").data).1.bsc_endpoints 1 =
        ⟨none, 0, some 0⟩) ∧
    ¬ ((⟨none, 0, some 0⟩ : BscEndpoint).transaction_id.isSome ↔
        (⟨none, 0, some 0⟩ : BscEndpoint).bsc.isSome) := by
  constructor
  · rfl
  · decide

end BscNat

namespace BscNat

/-- C2 (amended): when a reply matches a pending slot whose verb was CRCX
and carries no parseable CI, a DLCX is sent downstream to the owning
session's BSC and the pending slot is freed with the MGCP endpoint
released — but the §4.6 session teardown does not run: the SCCP records
(`msc_endp`, `bsc_endp`) and the BSC status arrays are left unchanged. -/
theorem claim_C2 (st : NatSt) (b : Nat) (msg : List Char) (code : Int)
    (tid : List Char) (i : Nat) (p : Nat × SccpConn)
    (hlen : ¬ 2000 < msg.length)
    (hp : bsc_mgcp_parse_response msg = some (code, tid))
    (hfind : forward_find st b tid = some i)
    (hstate : (st.bsc_endpoints (i : Int)).transaction_state = MGCP_ENDP_CRCX)
    (hci : bsc_mgcp_extract_ci msg = CI_UNUSED)
    (hcon : bsc_mgcp_find_con st (i : Int) = some p)
    (hbsc : p.2.bsc = b) :
    bsc_mgcp_forward st b msg =
      (mgcp_free_endp (bsc_mgcp_free_endpoint
          (updEndp st (i : Int) { st.endpoints (i : Int) with ci := CI_UNUSED })
          (i : Int)) (i : Int),
       [Event.dlcxSent b p.2.bsc_endp, Event.mgcpEndpFreed (i : Int)]) ∧
    (bsc_mgcp_forward st b msg).1.sccp_connections = st.sccp_connections ∧
    (bsc_mgcp_forward st b msg).1.bscs = st.bscs ∧
    (bsc_mgcp_forward st b msg).1.bsc_endpoints (i : Int) = emptySlot := by
  have h1 : bsc_mgcp_forward st b msg =
      (mgcp_free_endp (bsc_mgcp_free_endpoint
          (updEndp st (i : Int) { st.endpoints (i : Int) with ci := CI_UNUSED })
          (i : Int)) (i : Int),
       [Event.dlcxSent b p.2.bsc_endp, Event.mgcpEndpFreed (i : Int)]) := by
    rw [bsc_mgcp_forward, if_neg hlen, hp]
    try dsimp only
    rw [hfind]
    try dsimp only
    rw [hci, if_pos rfl, free_chan_downstream]
    try dsimp only
    have hstate1 : ((updEndp st (i : Int)
        { st.endpoints (i : Int) with ci := CI_UNUSED }).bsc_endpoints
          (i : Int)).transaction_state = MGCP_ENDP_CRCX := hstate
    rw [if_pos hstate1]
    have hcon1 : bsc_mgcp_find_con (updEndp st (i : Int)
        { st.endpoints (i : Int) with ci := CI_UNUSED }) (i : Int) = some p := hcon
    rw [hcon1]
    try dsimp only
    rw [if_pos hbsc]
    rfl
  refine ⟨h1, ?_, ?_, ?_⟩
  · rw [h1]
    simp [mgcp_free_endp, bsc_mgcp_free_endpoint, updEndp, updSlot]
  · rw [h1]
    simp [mgcp_free_endp, bsc_mgcp_free_endpoint, updEndp, updSlot]
  · rw [h1]
    simp [mgcp_free_endp, bsc_mgcp_free_endpoint, updEndp, updSlot]

end BscNat

namespace BscNat

/-- Counterexample to C2 as stated: a CI-less reply to a pending CRCX does
send a DLCX downstream and frees the endpoint slot, but the §4.6 session
teardown does not run — the owning session keeps `msc_endp = 1` and
`bsc_endp = 1` (not −1) and the status byte at endpoint 1 stays 1 (not
cleared). -/
theorem claim_C2_counterexample :
    ((bsc_mgcp_forward
      ⟨fun j => if j = 1 then ⟨some ("1234").data, MGCP_ENDP_CRCX, some 0⟩ else emptySlot,
       fun _ => ⟨0, 7, 8, none⟩, 2, [⟨1, 1, 0⟩],
       fun _ => ⟨some [0, 1], 1, 1, 2, some 2⟩, ("10.0.0.1").data, []⟩
      0 ("500 1234\n").data).1.sccp_connections.get? 0 = some ⟨1, 1, 0⟩) ∧
    (((bsc_mgcp_forward
      ⟨fun j => if j = 1 then ⟨some ("1234").data, MGCP_ENDP_CRCX, some 0⟩ else emptySlot,
       fun _ => ⟨0, 7, 8, none⟩, 2, [⟨1, 1, 0⟩],
       fun _ => ⟨some [0, 1], 1, 1, 2, some 2⟩, ("10.0.0.1").data, []⟩
      0 ("500 1234\n").data).1.bscs 0).endpoint_status = some [0, 1]) ∧
    ((bsc_mgcp_forward
      ⟨fun j => if j = 1 then ⟨some ("1234").data, MGCP_ENDP_CRCX, some 0⟩ else emptySlot,
       fun _ => ⟨0, 7, 8, none⟩, 2, [⟨1, 1, 0⟩],
       fun _ => ⟨some [0, 1], 1, 1, 2, some 2⟩, ("10.0.0.1").data, []⟩
      0 ("500 1234\n").data).2 =
        [Event.dlcxSent 0 1, Event.mgcpEndpFreed 1]) := by
  refine ⟨rfl, rfl, rfl⟩

/-- Witness for C2 at the same concrete state, through the amended
theorem. -/
theorem claim_C2_witness :
    bsc_mgcp_forward
      ⟨fun j => if j = 1 then ⟨some ("1234").data, MGCP_ENDP_CRCX, some 0⟩ else emptySlot,
       fun _ => ⟨0, 7, 8, none⟩, 2, [⟨1, 1, 0⟩],
       fun _ => ⟨some [0, 1], 1, 1, 2, some 2⟩, ("10.0.0.1").data, []⟩
      0 ("500 1234\n").data =
      (mgcp_free_endp (bsc_mgcp_free_endpoint
          (updEndp
            ⟨fun j => if j = 1 then ⟨some ("1234").data, MGCP_ENDP_CRCX, some 0⟩ else emptySlot,
             fun _ => ⟨0, 7, 8, none⟩, 2, [⟨1, 1, 0⟩],
             fun _ => ⟨some [0, 1], 1, 1, 2, some 2⟩, ("10.0.0.1").data, []⟩
            ((1 : Nat) : Int)
            { (⟨fun j => if j = 1 then ⟨some ("1234").data, MGCP_ENDP_CRCX, some 0⟩ else emptySlot,
                fun _ => ⟨0, 7, 8, none⟩, 2, [⟨1, 1, 0⟩],
                fun _ => ⟨some [0, 1], 1, 1, 2, some 2⟩, ("10.0.0.1").data, []⟩ : NatSt).endpoints
                  ((1 : Nat) : Int) with ci := CI_UNUSED })
          ((1 : Nat) : Int)) ((1 : Nat) : Int),
       [Event.dlcxSent 0 (⟨1, 1, 0⟩ : SccpConn).bsc_endp,
        Event.mgcpEndpFreed ((1 : Nat) : Int)]) ∧
    (bsc_mgcp_forward
      ⟨fun j => if j = 1 then ⟨some ("1234").data, MGCP_ENDP_CRCX, some 0⟩ else emptySlot,
       fun _ => ⟨0, 7, 8, none⟩, 2, [⟨1, 1, 0⟩],
       fun _ => ⟨some [0, 1], 1, 1, 2, some 2⟩, ("10.0.0.1").data, []⟩
      0 ("500 1234\n").data).1.sccp_connections =
      (⟨fun j => if j = 1 then ⟨some ("1234").data, MGCP_ENDP_CRCX, some 0⟩ else emptySlot,
        fun _ => ⟨0, 7, 8, none⟩, 2, [⟨1, 1, 0⟩],
        fun _ => ⟨some [0, 1], 1, 1, 2, some 2⟩, ("10.0.0.1").data, []⟩ : NatSt).sccp_connections ∧
    (bsc_mgcp_forward
      ⟨fun j => if j = 1 then ⟨some ("1234").data, MGCP_ENDP_CRCX, some 0⟩ else emptySlot,
       fun _ => ⟨0, 7, 8, none⟩, 2, [⟨1, 1, 0⟩],
       fun _ => ⟨some [0, 1], 1, 1, 2, some 2⟩, ("10.0.0.1").data, []⟩
      0 ("500 1234\n").data).1.bscs =
      (⟨fun j => if j = 1 then ⟨some ("1234").data, MGCP_ENDP_CRCX, some 0⟩ else emptySlot,
        fun _ => ⟨0, 7, 8, none⟩, 2, [⟨1, 1, 0⟩],
        fun _ => ⟨some [0, 1], 1, 1, 2, some 2⟩, ("10.0.0.1").data, []⟩ : NatSt).bscs ∧
    (bsc_mgcp_forward
      ⟨fun j => if j = 1 then ⟨some ("1234").data, MGCP_ENDP_CRCX, some 0⟩ else emptySlot,
       fun _ => ⟨0, 7, 8, none⟩, 2, [⟨1, 1, 0⟩],
       fun _ => ⟨some [0, 1], 1, 1, 2, some 2⟩, ("10.0.0.1").data, []⟩
      0 ("500 1234\n").data).1.bsc_endpoints ((1 : Nat) : Int) = emptySlot :=
  claim_C2
    ⟨fun j => if j = 1 then ⟨some ("1234").data, MGCP_ENDP_CRCX, some 0⟩ else emptySlot,
     fun _ => ⟨0, 7, 8, none⟩, 2, [⟨1, 1, 0⟩],
     fun _ => ⟨some [0, 1], 1, 1, 2, some 2⟩, ("10.0.0.1").data, []⟩
    0 ("500 1234\n").data 500 ("1234").data 1 (0, ⟨1, 1, 0⟩)
    (by decide) rfl rfl rfl rfl rfl rfl

end BscNat

namespace BscNat

/-- After a policy decision on an endpoint, its pending slot holds either
no transaction id at all or exactly the new transaction id: the previous
id never survives. -/
theorem policy_slot_id (st : NatSt) (e : Int) (state : Nat) (t' : List Char)
    (peer : Option Nat) :
    ((bsc_mgcp_policy_cb st e state t' peer).1.bsc_endpoints e).transaction_id = none ∨
    ((bsc_mgcp_policy_cb st e state t' peer).1.bsc_endpoints e).transaction_id = some t' := by
  have hentry : ∀ st0 : NatSt, st0 = updSlot st e
      { (if (st.bsc_endpoints e).transaction_id.isSome then
          { st.bsc_endpoints e with transaction_id := none, transaction_state := 0 }
        else st.bsc_endpoints e) with bsc := none } →
      (st0.bsc_endpoints e).transaction_id = none := by
    intro st0 h0
    subst h0
    simp only [updSlot, if_pos rfl]
    by_cases hid : (st.bsc_endpoints e).transaction_id.isSome
    · simp [hid]
    · simp only [hid, Bool.false_eq_true, if_neg, ite_false]
      simpa using Option.not_isSome_iff_eq_none.mp hid
  rw [bsc_mgcp_policy_cb]
  dsimp only
  split
  · left
    exact hentry _ rfl
  next p hfind =>
    split
    · left
      exact hentry _ rfl
    next out hout =>
      split
      next hcrcx =>
        split
        · right
          simp [updEndp, updSlot]
        · right
          simp [updSlot]
      next hncrcx =>
        split
        next hdlcx =>
          rw [bsc_mgcp_dlcx]
          split
          · right
            simp [updSlot]
          next con hcon =>
            dsimp only
            simp only [updCon]
            split
            next status heq =>
              split
              next hbe =>
                simp only [bsc_mgcp_free_endpoint, updSlot, updBsc]
                by_cases hj : e = con.msc_endp
                · left
                  simp [hj, emptySlot]
                · right
                  simp [if_neg hj]
              next hbe =>
                right
                simp [updSlot]
            next heq =>
              right
              simp [updSlot]
        next hndlcx =>
          right
          simp [updSlot]

end BscNat

namespace BscNat

/-- C7: (1) a second transaction on the same endpoint discards the pending
one — after the policy decision the old transaction id is gone from the
slot; (2) a reply whose transaction id is pending on no slot of this BSC
is dropped without any state change or output; (3) consuming a matched
reply clears the slot's transaction id, so a duplicate of that reply finds
no slot (by (2)). -/
theorem claim_C7 (st : NatSt) :
    (∀ (e : Int) (t t' : List Char) (state : Nat) (peer : Option Nat),
      (st.bsc_endpoints e).transaction_id = some t → t' ≠ t →
      ((bsc_mgcp_policy_cb st e state t' peer).1.bsc_endpoints e).transaction_id ≠
        some t) ∧
    (∀ (b : Nat) (msg : List Char) (code : Int) (t : List Char),
      ¬ 2000 < msg.length → bsc_mgcp_parse_response msg = some (code, t) →
      (∀ i ∈ List.range' 1 (st.number_endpoints - 1),
        ¬ ((st.bsc_endpoints (i : Int)).bsc = some b ∧
           (st.bsc_endpoints (i : Int)).transaction_id = some t)) →
      bsc_mgcp_forward st b msg = (st, [])) ∧
    (∀ (b : Nat) (msg : List Char) (code : Int) (t : List Char) (i : Nat),
      ¬ 2000 < msg.length → bsc_mgcp_parse_response msg = some (code, t) →
      forward_find st b t = some i →
      ((bsc_mgcp_forward st b msg).1.bsc_endpoints (i : Int)).transaction_id =
        none) := by
  refine ⟨?_, ?_, ?_⟩
  · intro e t t' state peer hold ht'
    rcases policy_slot_id st e state t' peer with h | h
    · simp [h]
    · simp [h, ht']
  · intro b msg code t hlen hp hno
    rw [bsc_mgcp_forward, if_neg hlen, hp]
    dsimp only
    have hfind : forward_find st b t = none := by
      rw [forward_find]
      apply List.find?_eq_none.mpr
      intro i hi
      simpa using hno i hi
    rw [hfind]
  · intro b msg code t i hlen hp hfind
    rw [bsc_mgcp_forward, if_neg hlen, hp]
    dsimp only
    rw [hfind]
    dsimp only
    split
    next hci =>
      simp only [free_chan_downstream, mgcp_free_endp, bsc_mgcp_free_endpoint,
        updEndp, updSlot]
      simp [emptySlot]
    next hci =>
      split
      · simp [updSlot]
      · simp [updSlot]

/-- Witness for C7 on a state whose endpoint 1 has transaction `"1111"`
pending for BSC 0: a new transaction `"2222"` discards it, a reply for the
unknown id `"9999"` is dropped, and a consumed reply clears the slot. -/
theorem claim_C7_witness :
    (((bsc_mgcp_policy_cb
      ⟨fun j => if j = 1 then ⟨some ("1111").data, 1, some 0⟩ else emptySlot,
       fun _ => ⟨0, 7, 8, none⟩, 2, [⟨1, 1, 0⟩],
       fun _ => ⟨some [0, 1], 1, 1, 2, some 2⟩, ("10.0.0.1").data, []⟩
      1 1 ("2222").data none).1.bsc_endpoints 1).transaction_id ≠
        some ("1111").data) ∧
    (bsc_mgcp_forward
      ⟨fun j => if j = 1 then ⟨some ("1111").data, 1, some 0⟩ else emptySlot,
       fun _ => ⟨0, 7, 8, none⟩, 2, [⟨1, 1, 0⟩],
       fun _ => ⟨some [0, 1], 1, 1, 2, some 2⟩, ("10.0.0.1").data, []⟩
      0 ("200 9999\n").data =
      (⟨fun j => if j = 1 then ⟨some ("1111").data, 1, some 0⟩ else emptySlot,
        fun _ => ⟨0, 7, 8, none⟩, 2, [⟨1, 1, 0⟩],
        fun _ => ⟨some [0, 1], 1, 1, 2, some 2⟩, ("10.0.0.1").data, []⟩, [])) ∧
    (((bsc_mgcp_forward
      ⟨fun j => if j = 1 then ⟨some ("1111").data, 1, some 0⟩ else emptySlot,
       fun _ => ⟨0, 7, 8, none⟩, 2, [⟨1, 1, 0⟩],
       fun _ => ⟨some [0, 1], 1, 1, 2, some 2⟩, ("10.0.0.1").data, []⟩
      0 ("200 1111\nI: 5\n").data).1.bsc_endpoints ((1 : Nat) : Int)).transaction_id =
        none) :=
  ⟨(claim_C7 _).1 1 ("1111").data ("2222").data 1 none rfl (by decide),
   (claim_C7 _).2.1 0 ("200 9999\n").data 200 ("9999").data (by decide) rfl
     (by decide),
   (claim_C7 _).2.2 0 ("200 1111\nI: 5\n").data 200 ("1111").data 1 (by decide)
     rfl rfl⟩

end BscNat
